import Mathlib

/-!
# CarBN trade lifecycle engine — verification development

Shallow embedding of the trade subsystem (package `trade`: `CreateTrade`,
`AcceptTrade`, `DeclineTrade`, `declineTradesWithCars`, `verifyCarOwnership`,
`updateCarOwnerships`, `updateOwnership`, `GetUserTrades`) together with the
HTTP handler's trade-response dispatch (`HandleTradeRequestResponse`) and the
feed collaborator call (`feed.CreateFeed`).

The database is modelled as an explicit state: the `trades` and `user_cars`
tables are lists of rows.  Each Go function that runs inside one transaction
becomes a Lean function `DB → Except TradeErr DB`; returning `.error e`
corresponds to the deferred `tx.Rollback` (the caller keeps the pre-state),
returning `.ok db'` corresponds to `tx.Commit`.  External collaborators are
part of the state: the subscription service is the set of user ids with an
active subscription, and the feed store carries a flag saying whether its
`INSERT` currently fails (the feed write goes through the service's own pool,
so its failure surfaces as an error from `feed.CreateFeed`).

Timestamps are integers (`NOW()` is the state's `now` field); string statuses
`'pending' | 'accepted' | 'declined'` become an inductive type.
-/

namespace CarBN

/-- Status column of a `trades` row: `'pending' | 'accepted' | 'declined'`. -/
inductive TradeStatus
  | pending
  | accepted
  | declined
deriving DecidableEq, Repr

/-- A row of the `trades` table (columns used by the trade service). -/
structure Trade where
  id : Int
  userIDFrom : Int
  userIDTo : Int
  status : TradeStatus
  userFromCarIDs : List Int
  userToCarIDs : List Int
  createdAt : Int
  tradedAt : Option Int
deriving DecidableEq, Repr

/-- A row of the `user_cars` table (`id SERIAL PRIMARY KEY`, `user_id`). -/
structure UserCar where
  id : Int
  userId : Int
deriving DecidableEq, Repr

/-- A row of the feed table, as written by `feed.CreateFeed`. -/
structure FeedEntry where
  userID : Int
  feedType : String
  referenceID : Int
  relatedUserID : Int
deriving DecidableEq, Repr

/-- The whole state the trade subsystem reads and writes: the two tables,
the sequence backing `trades.id`, the clock, and the external collaborators
(subscription service answers, feed store health, feed rows). -/
structure DB where
  userCars : List UserCar
  trades : List Trade
  nextTradeID : Int
  now : Int
  subscribers : List Int
  feedFails : Bool
  feeds : List FeedEntry
deriving DecidableEq, Repr

/-- Error kinds, one per distinct error-return site of the trade service. -/
inductive TradeErr
  | ineligibleFrom
  | ineligibleTo
  | tradeNotFound
  | notRecipient
  | notOwned (userID carID : Int)
  | invalidState
  | feedFailure
  | noPendingTrade (tradeID : Int)
deriving DecidableEq, Repr

/-- `subscriptionService.HasActiveSubscription(ctx, userID)`. -/
def hasActiveSubscription (db : DB) (userID : Int) : Bool :=
  db.subscribers.contains userID

/-- `SELECT COUNT(*) FROM user_cars WHERE id = $1 AND user_id = $2`. -/
def ownsCount (cars : List UserCar) (carID userID : Int) : Nat :=
  (cars.filter (fun uc => uc.id == carID && uc.userId == userID)).length

/-- `verifyCarOwnership`: loop over `carIDs`; the first car with a zero count
yields the error `user %d does not own car %d`, reported as `(user, car)`. -/
def verifyCarOwnership (cars : List UserCar) (userID : Int) :
    List Int → Option (Int × Int)
  | [] => none
  | carID :: rest =>
      if ownsCount cars carID userID == 0 then some (userID, carID)
      else verifyCarOwnership cars userID rest

/-- `updateOwnership`: loop over `carIDs`, each iteration performing
`UPDATE user_cars SET user_id = $1 WHERE id = $2`. -/
def updateOwnership (cars : List UserCar) (carIDs : List Int)
    (newUserID : Int) : List UserCar :=
  match carIDs with
  | [] => cars
  | carID :: rest =>
      updateOwnership
        (cars.map (fun uc =>
          if uc.id == carID then { uc with userId := newUserID } else uc))
        rest newUserID

/-- `updateCarOwnerships`: `fromItems` go to `userIDTo`, then `toItems` go to
`userIDFrom`. -/
def updateCarOwnerships (cars : List UserCar) (userIDFrom userIDTo : Int)
    (userFromCarIDs userToCarIDs : List Int) : List UserCar :=
  updateOwnership (updateOwnership cars userFromCarIDs userIDTo)
    userToCarIDs userIDFrom

/-- `SELECT COUNT(*) FROM trades WHERE status = 'pending' AND user_id_from =
$1 AND user_id_to = $2 AND user_from_user_car_ids = $3 AND
user_to_user_car_ids = $4` (SQL array `=` is order-sensitive). -/
def matchingPendingCount (trades : List Trade) (userIDFrom userIDTo : Int)
    (userFromCarIDs userToCarIDs : List Int) : Nat :=
  (trades.filter (fun t =>
    t.status == TradeStatus.pending && t.userIDFrom == userIDFrom &&
    t.userIDTo == userIDTo && t.userFromCarIDs == userFromCarIDs &&
    t.userToCarIDs == userToCarIDs)).length

/-- The row inserted by `CreateTrade` (`id` from the serial sequence,
`created_at` defaults to the current timestamp, `traded_at NULL`). -/
def newTrade (db : DB) (userIDFrom userIDTo : Int)
    (userFromCarIDs userToCarIDs : List Int) : Trade :=
  { id := db.nextTradeID
    userIDFrom := userIDFrom
    userIDTo := userIDTo
    status := TradeStatus.pending
    userFromCarIDs := userFromCarIDs
    userToCarIDs := userToCarIDs
    createdAt := db.now
    tradedAt := none }

/-- `CreateTrade`: subscription checks for both parties, idempotency check,
dual ownership verification, insert; all inside one transaction. -/
def CreateTrade (db : DB) (userIDFrom userIDTo : Int)
    (userFromCarIDs userToCarIDs : List Int) : Except TradeErr DB :=
  if !hasActiveSubscription db userIDFrom then .error .ineligibleFrom
  else if !hasActiveSubscription db userIDTo then .error .ineligibleTo
  else if matchingPendingCount db.trades userIDFrom userIDTo
            userFromCarIDs userToCarIDs > 0 then
    .ok db
  else match verifyCarOwnership db.userCars userIDFrom userFromCarIDs with
  | some (u, c) => .error (.notOwned u c)
  | none =>
    match verifyCarOwnership db.userCars userIDTo userToCarIDs with
    | some (u, c) => .error (.notOwned u c)
    | none =>
        .ok { db with
          trades := db.trades ++
            [newTrade db userIDFrom userIDTo userFromCarIDs userToCarIDs],
          nextTradeID := db.nextTradeID + 1 }

/-- `SELECT ... FROM trades WHERE id = $1` via `QueryRow` (first row). -/
def findTrade (trades : List Trade) (tradeID : Int) : Option Trade :=
  trades.find? (fun t => t.id == tradeID)

/-- `declineTradesWithCars`: auto-decline every other pending trade whose
`user_from_user_car_ids` or `user_to_user_car_ids` meets `carIDs`. -/
def declineTradesWithCars (trades : List Trade) (excludeTradeID : Int)
    (carIDs : List Int) : List Trade :=
  if carIDs.isEmpty then trades
  else trades.map (fun t =>
    if t.id != excludeTradeID && t.status == TradeStatus.pending &&
       (t.userFromCarIDs.any (fun c => carIDs.contains c) ||
        t.userToCarIDs.any (fun c => carIDs.contains c))
    then { t with status := TradeStatus.declined } else t)

/-- The state committed by a successful `AcceptTrade` of trade `tr` (id
`tradeID`): ownership transferred, status and `traded_at` updated, conflicting
pending trades auto-declined, one `trade_completed` feed row written. -/
def acceptCommit (db : DB) (tradeID : Int) (tr : Trade) : DB :=
  { db with
    userCars := updateCarOwnerships db.userCars tr.userIDFrom
      tr.userIDTo tr.userFromCarIDs tr.userToCarIDs
    trades := declineTradesWithCars
      (db.trades.map (fun t =>
        if t.id == tradeID then
          { t with
            status := TradeStatus.accepted
            tradedAt := some db.now }
        else t))
      tradeID (tr.userFromCarIDs ++ tr.userToCarIDs)
    feeds := db.feeds ++
      [{ userID := tr.userIDFrom
         feedType := "trade_completed"
         referenceID := tradeID
         relatedUserID := tr.userIDTo }] }

/-- `AcceptTrade`: load, recipient check, dual ownership verification,
status check, ownership transfer, status update, conflict auto-decline,
feed entry; one transaction, committed only at the end. -/
def AcceptTrade (db : DB) (userID tradeID : Int) : Except TradeErr DB :=
  match findTrade db.trades tradeID with
  | none => .error .tradeNotFound
  | some tr =>
    if userID != tr.userIDTo then .error .notRecipient
    else match verifyCarOwnership db.userCars tr.userIDFrom tr.userFromCarIDs with
    | some (u, c) => .error (.notOwned u c)
    | none =>
      match verifyCarOwnership db.userCars tr.userIDTo tr.userToCarIDs with
      | some (u, c) => .error (.notOwned u c)
      | none =>
        if tr.status != TradeStatus.pending then .error .invalidState
        else if db.feedFails then .error .feedFailure
        else .ok (acceptCommit db tradeID tr)

/-- The observable effect of one `AcceptTrade` call: on `.error` the deferred
`tx.Rollback` leaves the database as it was. -/
def acceptRun (db : DB) (userID tradeID : Int) : DB × Option TradeErr :=
  match AcceptTrade db userID tradeID with
  | .ok db' => (db', none)
  | .error e => (db, some e)

/-- `DeclineTrade`: `UPDATE trades SET status = 'declined' WHERE id = $1 AND
status = 'pending'`; zero affected rows is reported as an error. -/
def DeclineTrade (db : DB) (tradeID : Int) : Except TradeErr DB :=
  if (db.trades.filter (fun t =>
      t.id == tradeID && t.status == TradeStatus.pending)).length == 0 then
    .error (.noPendingTrade tradeID)
  else .ok { db with trades := db.trades.map (fun t =>
    if t.id == tradeID && t.status == TradeStatus.pending then
      { t with status := TradeStatus.declined }
    else t) }

/-- Outcome written by the HTTP handler. -/
inductive HandlerOutcome
  | success
  | badRequest
  | failure (e : TradeErr)
deriving DecidableEq, Repr

/-- `HandleTradeRequestResponse`: dispatch on the `response` string; the
authenticated caller id is passed to `AcceptTrade` but not to `DeclineTrade`. -/
def handleTradeRequestResponse (db : DB) (userID tradeID : Int)
    (response : String) : DB × HandlerOutcome :=
  if response == "accept" then
    match AcceptTrade db userID tradeID with
    | .ok db' => (db', .success)
    | .error e => (db, .failure e)
  else if response == "decline" then
    match DeclineTrade db tradeID with
    | .ok db' => (db', .success)
    | .error e => (db, .failure e)
  else (db, .badRequest)

/-! ## Trade query service (`GetUserTrades`)

`GetUserTrades` runs `SELECT ... WHERE user_id_from = $1 OR user_id_to = $1
ORDER BY created_at DESC LIMIT $2 OFFSET $3`.  The `ORDER BY` names only
`created_at`; the order of rows with equal `created_at` is chosen by the
database, not by the query.  We therefore model the sorted row set
relationally: any permutation of the matching rows that is non-increasing in
`created_at` is a possible result of the `ORDER BY`, and the function below
applies the `LIMIT`/`OFFSET` slice to such an ordering. -/

/-- The rows matched by `WHERE user_id_from = $1 OR user_id_to = $1`. -/
def tradesInvolving (db : DB) (userID : Int) : List Trade :=
  db.trades.filter (fun t => t.userIDFrom == userID || t.userIDTo == userID)

/-- `SELECT COUNT(*) FROM trades WHERE user_id_from = $1 OR user_id_to = $1`. -/
def getUserTradesCount (db : DB) (userID : Int) : Nat :=
  (tradesInvolving db userID).length

/-- `rows` is a possible output of the `ORDER BY created_at DESC` query for
`userID`: a permutation of the matching rows, non-increasing in `created_at`. -/
def QueryRows (db : DB) (userID : Int) (rows : List Trade) : Prop :=
  rows.Perm (tradesInvolving db userID) ∧
    rows.Pairwise (fun a b => b.createdAt ≤ a.createdAt)

instance (db : DB) (userID : Int) (rows : List Trade) :
    Decidable (QueryRows db userID rows) := by
  unfold QueryRows; infer_instance

/-- The page returned by `GetUserTrades` given the ordering `rows` the
database chose: `LIMIT pageSize OFFSET (page-1)*pageSize`. -/
def getUserTradesRows (rows : List Trade) (page pageSize : Int) : List Trade :=
  (rows.drop ((page - 1) * pageSize).toNat).take pageSize.toNat

/-- The ordering the specification describes: `created_at` descending with
ties broken by trade id descending.  (Comparison function of that order.) -/
def specOrderLE (a b : Trade) : Bool :=
  b.createdAt < a.createdAt ||
    (b.createdAt == a.createdAt && b.id ≤ a.id)

/-- Insertion into a list sorted by `specOrderLE`. -/
def specInsert (t : Trade) : List Trade → List Trade
  | [] => [t]
  | x :: xs => if specOrderLE t x then t :: x :: xs else x :: specInsert t xs

/-- Sorting by the specification's order (insertion sort). -/
def specSort : List Trade → List Trade
  | [] => []
  | x :: xs => specInsert x (specSort xs)

/-- The page the specification's sentence prescribes: matching rows sorted
newest-first with ties broken by id descending, then sliced. -/
def specGetUserTrades (db : DB) (userID : Int) (page pageSize : Int) :
    List Trade :=
  getUserTradesRows (specSort (tradesInvolving db userID)) page pageSize

/-! ## Operation sequences

Every externally triggered mutation of trade state goes through
`CreateTrade`, `AcceptTrade` (which also runs the conflict resolver) or
`DeclineTrade`.  An operation that returns an error leaves the database as it
was (rollback, or in `DeclineTrade`'s case a zero-row update). -/

/-- One inbound mutating request. -/
inductive Op
  | create (userIDFrom userIDTo : Int) (userFromCarIDs userToCarIDs : List Int)
  | accept (userID tradeID : Int)
  | decline (tradeID : Int)
deriving DecidableEq, Repr

/-- Run one operation; an error rolls back to the pre-state. -/
def applyOp (db : DB) : Op → DB
  | .create f t fc tc =>
      match CreateTrade db f t fc tc with
      | .ok db' => db'
      | .error _ => db
  | .accept u tid =>
      match AcceptTrade db u tid with
      | .ok db' => db'
      | .error _ => db
  | .decline tid =>
      match DeclineTrade db tid with
      | .ok db' => db'
      | .error _ => db

/-- Run a sequence of operations in order. -/
def applyOps (db : DB) : List Op → DB
  | [] => db
  | op :: ops => applyOps (applyOp db op) ops

/-- Database well-formedness maintained by the schema: `trades.id` is a
`SERIAL PRIMARY KEY`, so ids are distinct and below the sequence value. -/
def WF (db : DB) : Prop :=
  (db.trades.map Trade.id).Nodup ∧ ∀ t ∈ db.trades, t.id < db.nextTradeID

instance (db : DB) : Decidable (WF db) := by
  unfold WF
  exact @instDecidableAnd _ _ (List.nodupDecidable _) (List.decidableBAll _ _)

/-- Current owner of a car: `user_id` of the `user_cars` row with this id. -/
def carOwner (cars : List UserCar) (carID : Int) : Option Int :=
  (cars.find? (fun uc => uc.id == carID)).map UserCar.userId

/-- The `declineTradesWithCars` match condition on one trade: its
`user_from_user_car_ids` or `user_to_user_car_ids` contains a car of `ids`. -/
def sharesCar (t : Trade) (ids : List Int) : Bool :=
  t.userFromCarIDs.any (fun c => ids.contains c) ||
    t.userToCarIDs.any (fun c => ids.contains c)

/-! ## Concrete states used to instantiate the theorems -/

/-- User 1 owns cars 10 and 11, user 2 owns cars 20 and 21, user 3 owns 30. -/
def exCars : List UserCar := [⟨10, 1⟩, ⟨11, 1⟩, ⟨20, 2⟩, ⟨21, 2⟩, ⟨30, 3⟩]

/-- Trade 1: user 1 offers car 10 to user 2 for car 20, pending. -/
def tradeOne : Trade :=
  ⟨1, 1, 2, TradeStatus.pending, [10], [20], 50, none⟩

/-- Trade 2: user 1 also offers car 10 to user 3, pending (conflicts with
trade 1). -/
def tradeTwo : Trade :=
  ⟨2, 1, 3, TradeStatus.pending, [10], [], 51, none⟩

/-- Trade 3: user 3 offers car 30 to user 2, pending (no shared car). -/
def tradeThree : Trade :=
  ⟨3, 3, 2, TradeStatus.pending, [30], [], 52, none⟩

/-- Base state: three pending trades over `exCars`. -/
def dbPend : DB :=
  { userCars := exCars
    trades := [tradeOne, tradeTwo, tradeThree]
    nextTradeID := 4
    now := 100
    subscribers := [1, 2, 3]
    feedFails := false
    feeds := [] }

/-- State after trade 1 has been accepted: cars swapped, trade 1 accepted. -/
def dbC5state : DB :=
  { dbPend with
    userCars := [⟨10, 2⟩, ⟨11, 1⟩, ⟨20, 1⟩, ⟨21, 2⟩, ⟨30, 3⟩]
    trades := [⟨1, 1, 2, TradeStatus.accepted, [10], [20], 50, some 60⟩,
               ⟨2, 1, 3, TradeStatus.declined, [10], [], 51, none⟩,
               tradeThree] }

/-- State with trade 1 declined and ownership unchanged. -/
def dbC5decl : DB :=
  { dbPend with
    trades := [⟨1, 1, 2, TradeStatus.declined, [10], [20], 50, none⟩] }

/-- State where car 10, promised in pending trade 1, now belongs to user 9. -/
def dbC6state : DB :=
  { dbPend with userCars := [⟨10, 9⟩, ⟨11, 1⟩, ⟨20, 2⟩, ⟨21, 2⟩, ⟨30, 3⟩] }

/-- `dbPend` with a feed store that fails its insert. -/
def dbC7state : DB := { dbPend with feedFails := true }

/-- A state with no trades, used for the `CreateTrade` instantiations. -/
def dbEmpty : DB :=
  { userCars := exCars
    trades := []
    nextTradeID := 1
    now := 100
    subscribers := [1, 2, 3]
    feedFails := false
    feeds := [] }

/-- Two trades of user 1 sharing `created_at = 50`, ids 1 and 2. -/
def trA : Trade := ⟨1, 1, 2, TradeStatus.pending, [10], [20], 50, none⟩

/-- Second trade with the same `created_at` as `trA` but larger id. -/
def trB : Trade := ⟨2, 1, 3, TradeStatus.pending, [11], [], 50, none⟩

/-- State holding `trA` and `trB`, for the pagination theorems. -/
def dbC8state : DB := { dbEmpty with trades := [trA, trB], nextTradeID := 3 }

/-! ## Helper lemmas -/

/-- A zero `ownsCount` means no `user_cars` row pairs this car with this
user; a nonzero count means such a row exists. -/
lemma ownsCount_ne_zero_iff (cars : List UserCar) (c u : Int) :
    ownsCount cars c u ≠ 0 ↔ ∃ uc ∈ cars, uc.id = c ∧ uc.userId = u := by
  unfold ownsCount
  constructor
  · intro h
    have hne : List.filter (fun uc => uc.id == c && uc.userId == u) cars ≠ [] := by
      intro hnil
      rw [hnil] at h
      exact h rfl
    rcases List.exists_mem_of_ne_nil _ hne with ⟨uc, huc⟩
    rw [List.mem_filter] at huc
    obtain ⟨hmem, hpred⟩ := huc
    simp only [Bool.and_eq_true, beq_iff_eq] at hpred
    exact ⟨uc, hmem, hpred.1, hpred.2⟩
  · rintro ⟨uc, huc, h1, h2⟩ hlen
    rw [List.length_eq_zero] at hlen
    have : uc ∈ List.filter (fun uc => uc.id == c && uc.userId == u) cars := by
      rw [List.mem_filter]
      exact ⟨huc, by simp [h1, h2]⟩
    rw [hlen] at this
    cases this

/-- `verifyCarOwnership` succeeds exactly when every listed car has a row
pairing it with the given user. -/
lemma verifyCarOwnership_eq_none_iff (cars : List UserCar) (u : Int)
    (l : List Int) :
    verifyCarOwnership cars u l = none ↔ ∀ c ∈ l, ownsCount cars c u ≠ 0 := by
  induction l with
  | nil => simp [verifyCarOwnership]
  | cons c rest ih =>
    unfold verifyCarOwnership
    cases hc : (ownsCount cars c u == 0) with
    | true =>
        simp only [if_pos rfl, reduceIte]
        constructor
        · intro h; cases h
        · intro h
          exact absurd (beq_iff_eq.mp hc) (h c (List.mem_cons_self c rest))
    | false =>
        simp only [Bool.false_eq_true, reduceIte]
        rw [ih]
        constructor
        · intro h c' hc'
          rcases List.mem_cons.mp hc' with rfl | hmem
          · intro h0; rw [h0] at hc; simp at hc
          · exact h c' hmem
        · intro h c' hc'
          exact h c' (List.mem_cons_of_mem c hc')

/-- When some listed car has no row for the given user, `verifyCarOwnership`
fails, reporting that user together with the first such car. -/
lemma verifyCarOwnership_fails (cars : List UserCar) (u : Int)
    (l : List Int) (h : ∃ c ∈ l, ownsCount cars c u = 0) :
    ∃ c, verifyCarOwnership cars u l = some (u, c) := by
  induction l with
  | nil => rcases h with ⟨c, hc, _⟩; cases hc
  | cons c rest ih =>
    unfold verifyCarOwnership
    cases hc : (ownsCount cars c u == 0) with
    | true => exact ⟨c, by simp⟩
    | false =>
        simp only [Bool.false_eq_true, reduceIte]
        apply ih
        rcases h with ⟨c', hc', h0⟩
        rcases List.mem_cons.mp hc' with rfl | hmem
        · rw [h0] at hc; simp at hc
        · exact ⟨c', hmem, h0⟩

/-- The loop of single-car `UPDATE`s equals one pass over the table setting
every row whose id is listed. -/
lemma updateOwnership_eq_map (carIDs : List Int) (newU : Int) :
    ∀ cars : List UserCar, updateOwnership cars carIDs newU =
      cars.map (fun uc =>
        if carIDs.contains uc.id then { uc with userId := newU } else uc) := by
  induction carIDs with
  | nil =>
      intro cars
      simp [updateOwnership]
  | cons c rest ih =>
      intro cars
      rw [updateOwnership, ih, List.map_map]
      have hfun : ∀ uc : UserCar,
          ((fun uc => if rest.contains uc.id then { uc with userId := newU } else uc) ∘
            (fun uc => if uc.id == c then { uc with userId := newU } else uc)) uc =
          (fun uc =>
            if (c :: rest).contains uc.id then { uc with userId := newU } else uc) uc := by
        intro uc
        by_cases h1 : uc.id = c
        · by_cases h2 : rest.contains c
          · simp [h1, h2]
          · simp [h1, h2]
        · have : (uc.id == c) = false := by simp [h1]
          by_cases h2 : rest.contains uc.id
          · simp [this, h1, h2]
          · simp [this, h1, h2]
      rw [funext hfun]

/-- Both `updateOwnership` passes of `updateCarOwnerships` in one map: rows
listed in `toItems` go to `userIDFrom` (the second pass wins on overlap),
remaining rows listed in `fromItems` go to `userIDTo`. -/
lemma updateCarOwnerships_eq_map (cars : List UserCar)
    (userIDFrom userIDTo : Int) (fromIDs toIDs : List Int) :
    updateCarOwnerships cars userIDFrom userIDTo fromIDs toIDs =
      cars.map (fun uc =>
        if toIDs.contains uc.id then { uc with userId := userIDFrom }
        else if fromIDs.contains uc.id then { uc with userId := userIDTo }
        else uc) := by
  unfold updateCarOwnerships
  rw [updateOwnership_eq_map, updateOwnership_eq_map, List.map_map]
  have hfun : ∀ uc : UserCar,
      ((fun uc => if toIDs.contains uc.id then { uc with userId := userIDFrom } else uc) ∘
        (fun uc => if fromIDs.contains uc.id then { uc with userId := userIDTo } else uc)) uc =
      (fun uc =>
        if toIDs.contains uc.id then { uc with userId := userIDFrom }
        else if fromIDs.contains uc.id then { uc with userId := userIDTo }
        else uc) uc := by
    intro uc
    by_cases h1 : uc.id ∈ fromIDs <;> by_cases h2 : uc.id ∈ toIDs <;>
      simp [Function.comp, h1, h2]
  rw [funext hfun]

/-- `find?` by a key commutes with a key-preserving map. -/
lemma find?_map_key {α : Type} (key : α → Int) (f : α → α)
    (hf : ∀ x, key (f x) = key x) (i : Int) (l : List α) :
    (l.map f).find? (fun x => key x == i) =
      (l.find? (fun x => key x == i)).map f := by
  induction l with
  | nil => rfl
  | cons a as ih =>
      rw [List.map_cons]
      cases ha : (key a == i) with
      | true =>
          rw [List.find?_cons_of_pos, List.find?_cons_of_pos]
          · rfl
          · exact ha
          · rw [hf a]; exact ha
      | false =>
          rw [List.find?_cons_of_neg, List.find?_cons_of_neg]
          · exact ih
          · simp [ha]
          · rw [hf a]; simp [ha]

/-- Under distinct keys, `find?` by a member's key returns that member. -/
lemma find?_eq_some_self {α : Type} (key : α → Int) (l : List α)
    (hnd : (l.map key).Nodup) (x : α) (hx : x ∈ l) :
    l.find? (fun y => key y == key x) = some x := by
  induction l with
  | nil => cases hx
  | cons a as ih =>
      rw [List.map_cons, List.nodup_cons] at hnd
      obtain ⟨hka, hnd'⟩ := hnd
      rcases List.mem_cons.mp hx with rfl | hxas
      · rw [List.find?_cons_of_pos]
        simp
      · have hne : key a ≠ key x := by
          intro h
          exact hka (h ▸ List.mem_map_of_mem key hxas)
        rw [List.find?_cons_of_neg]
        · exact ih hnd' hxas
        · simp [hne]

/-- Anatomy of a successful `AcceptTrade`: the trade was found, the caller is
its recipient, both ownership verifications passed, it was pending, the feed
write succeeded, and the committed state is `acceptCommit`. -/
lemma acceptTrade_ok_shape (db : DB) (u tid : Int) (db' : DB)
    (h : AcceptTrade db u tid = .ok db') :
    ∃ tr, findTrade db.trades tid = some tr ∧ u = tr.userIDTo ∧
      verifyCarOwnership db.userCars tr.userIDFrom tr.userFromCarIDs = none ∧
      verifyCarOwnership db.userCars tr.userIDTo tr.userToCarIDs = none ∧
      tr.status = TradeStatus.pending ∧ db.feedFails = false ∧
      db' = acceptCommit db tid tr := by
  unfold AcceptTrade at h
  split at h
  · cases h
  next tr hfind =>
    split at h
    · cases h
    next hu =>
      split at h
      · cases h
      next hv1 =>
        split at h
        · cases h
        next hv2 =>
          split at h
          · cases h
          next hst =>
            split at h
            · cases h
            next hfeed =>
              refine ⟨tr, hfind, ?_, hv1, hv2, ?_, ?_, ?_⟩
              · simpa using hu
              · simpa using hst
              · simpa using hfeed
              · exact (Except.ok.injEq _ _).mp h.symm

/-- Anatomy of a successful `CreateTrade`: both parties subscribed, and
either the idempotency short-circuit fired (state unchanged) or the checks
passed and exactly the new row was appended. -/
lemma createTrade_ok_shape (db : DB) (f t : Int) (fc tc : List Int)
    (db' : DB) (h : CreateTrade db f t fc tc = .ok db') :
    hasActiveSubscription db f = true ∧ hasActiveSubscription db t = true ∧
      ((0 < matchingPendingCount db.trades f t fc tc ∧ db' = db) ∨
       (matchingPendingCount db.trades f t fc tc = 0 ∧
        verifyCarOwnership db.userCars f fc = none ∧
        verifyCarOwnership db.userCars t tc = none ∧
        db' = { db with
          trades := db.trades ++ [newTrade db f t fc tc]
          nextTradeID := db.nextTradeID + 1 })) := by
  unfold CreateTrade at h
  split at h
  · cases h
  next hsf =>
    split at h
    · cases h
    next hst =>
      refine ⟨by simpa using hsf, by simpa using hst, ?_⟩
      split at h
      next hcnt =>
        exact Or.inl ⟨hcnt, ((Except.ok.injEq _ _).mp h).symm⟩
      next hcnt =>
        split at h
        · cases h
        next hv1 =>
          split at h
          · cases h
          next hv2 =>
            exact Or.inr ⟨Nat.eq_zero_of_not_pos hcnt, hv1, hv2,
              ((Except.ok.injEq _ _).mp h).symm⟩

/-- Anatomy of a successful `DeclineTrade`: some pending row had the id, and
every pending row with the id was set to `declined`. -/
lemma declineTrade_ok_shape (db : DB) (tid : Int) (db' : DB)
    (h : DeclineTrade db tid = .ok db') :
    (db.trades.filter (fun t =>
      t.id == tid && t.status == TradeStatus.pending)).length ≠ 0 ∧
    db' = { db with trades := db.trades.map (fun t =>
      if t.id == tid && t.status == TradeStatus.pending then
        { t with status := TradeStatus.declined }
      else t) } := by
  unfold DeclineTrade at h
  split at h
  · cases h
  next hcnt =>
    exact ⟨by simpa using hcnt, ((Except.ok.injEq _ _).mp h).symm⟩

/-- Distinct mapped keys make the key function injective on members. -/
lemma eq_of_nodup_key {α : Type} (key : α → Int) (l : List α)
    (hnd : (l.map key).Nodup) (x y : α) (hx : x ∈ l) (hy : y ∈ l)
    (hkey : key x = key y) : x = y := by
  induction l with
  | nil => cases hx
  | cons a as ih =>
      rw [List.map_cons, List.nodup_cons] at hnd
      obtain ⟨hka, hnd'⟩ := hnd
      rcases List.mem_cons.mp hx with rfl | hxas
      · rcases List.mem_cons.mp hy with rfl | hyas
        · rfl
        · exact absurd (hkey ▸ List.mem_map_of_mem key hyas) hka
      · rcases List.mem_cons.mp hy with rfl | hyas
        · exact absurd (hkey ▸ List.mem_map_of_mem key hxas) hka
        · exact ih hnd' hxas hyas

/-- A key-preserving map keeps the list of keys. -/
lemma map_key_map {α : Type} (key : α → Int) (f : α → α)
    (hf : ∀ x, key (f x) = key x) (l : List α) :
    (l.map f).map key = l.map key := by
  rw [List.map_map]
  exact List.map_congr_left (fun a _ => hf a)

/-- The conflict-resolution update never changes a trade's id. -/
lemma declineTradesWithCars_ids (l : List Trade) (ex : Int) (ids : List Int) :
    (declineTradesWithCars l ex ids).map Trade.id = l.map Trade.id := by
  unfold declineTradesWithCars
  split
  · rfl
  · exact map_key_map Trade.id _ (fun t => by split <;> rfl) l

/-- Looking a trade up after conflict resolution: the found row is the old
row, transformed by the auto-decline rule. -/
lemma findTrade_decline (l : List Trade) (ex : Int) (ids : List Int)
    (i : Int) :
    findTrade (declineTradesWithCars l ex ids) i =
      (findTrade l i).map (fun t =>
        if t.id != ex && t.status == TradeStatus.pending &&
            sharesCar t ids
        then { t with status := TradeStatus.declined } else t) := by
  unfold declineTradesWithCars
  split
  next hemp =>
    rw [List.isEmpty_iff.mp hemp]
    cases hfind : findTrade l i with
    | none => simp
    | some t => simp [sharesCar]
  next =>
    unfold findTrade
    rw [find?_map_key Trade.id _ (fun t => by split <;> rfl) i l]
    cases l.find? (fun t => t.id == i) with
    | none => rfl
    | some t => simp [sharesCar]

/-- Looking a trade up after the status-update map of `AcceptTrade`. -/
lemma findTrade_acceptMap (l : List Trade) (tid : Int) (now : Int)
    (i : Int) :
    findTrade (l.map (fun t =>
        if t.id == tid then
          { t with
            status := TradeStatus.accepted
            tradedAt := some now }
        else t)) i =
      (findTrade l i).map (fun t =>
        if t.id == tid then
          { t with
            status := TradeStatus.accepted
            tradedAt := some now }
        else t) := by
  unfold findTrade
  exact find?_map_key Trade.id _ (fun t => by split <;> rfl) i l

/-- The idempotency count distributes over appended rows. -/
lemma matchingPendingCount_append (l₁ l₂ : List Trade) (f t : Int)
    (fc tc : List Int) :
    matchingPendingCount (l₁ ++ l₂) f t fc tc =
      matchingPendingCount l₁ f t fc tc +
        matchingPendingCount l₂ f t fc tc := by
  unfold matchingPendingCount
  rw [List.filter_append, List.length_append]

/-- The row `CreateTrade` inserts matches its own idempotency filter. -/
lemma matchingPendingCount_newTrade (db : DB) (f t : Int)
    (fc tc : List Int) :
    matchingPendingCount [newTrade db f t fc tc] f t fc tc = 1 := by
  simp [matchingPendingCount, newTrade]

/-! ## Claim theorems -/

/-- C10: ownership verification of an empty item list always succeeds, so
`CreateTrade` called with empty `fromItems` and `toItems` by two eligible
users creates and persists a pending trade offering nothing on either side —
no non-emptiness validation exists on the create path. -/
theorem createTrade_empty_lists (db : DB) (f t : Int)
    (hf : hasActiveSubscription db f = true)
    (ht : hasActiveSubscription db t = true)
    (hnm : matchingPendingCount db.trades f t [] [] = 0) :
    (∀ cars u, verifyCarOwnership cars u [] = none) ∧
    CreateTrade db f t [] [] = .ok { db with
      trades := db.trades ++ [newTrade db f t [] []]
      nextTradeID := db.nextTradeID + 1 } := by
  refine ⟨fun cars u => rfl, ?_⟩
  simp [CreateTrade, hf, ht, hnm, verifyCarOwnership]

/-- Witness: `createTrade_empty_lists` applied at a concrete state. -/
theorem createTrade_empty_lists_witness :
    hasActiveSubscription dbEmpty 1 = true ∧
    hasActiveSubscription dbEmpty 2 = true ∧
    matchingPendingCount dbEmpty.trades 1 2 [] [] = 0 ∧
    CreateTrade dbEmpty 1 2 [] [] = .ok { dbEmpty with
      trades := dbEmpty.trades ++ [newTrade dbEmpty 1 2 [] []]
      nextTradeID := dbEmpty.nextTradeID + 1 } :=
  ⟨by decide, by decide, by decide,
    (createTrade_empty_lists dbEmpty 1 2 (by decide) (by decide)
      (by decide)).2⟩

/-- C9: the decline path performs no authorization check — the handler's
outcome on `"decline"` is the same for every authenticated caller, and any
caller's decline of a pending trade succeeds and marks it declined. -/
theorem declineTrade_no_authorization (db : DB) (caller tid : Int)
    (tr : Trade) (hfind : findTrade db.trades tid = some tr)
    (hp : tr.status = TradeStatus.pending) :
    (∀ c₁ c₂ : Int, handleTradeRequestResponse db c₁ tid "decline" =
        handleTradeRequestResponse db c₂ tid "decline") ∧
    ∃ db', handleTradeRequestResponse db caller tid "decline" =
        (db', HandlerOutcome.success) ∧
      findTrade db'.trades tid =
        some { tr with status := TradeStatus.declined } := by
  unfold findTrade at hfind
  have hmem : tr ∈ db.trades := List.mem_of_find?_eq_some hfind
  have hid : (tr.id == tid) = true := by
    have := List.find?_some hfind
    simpa using this
  have hinfilter : tr ∈ db.trades.filter (fun t =>
      t.id == tid && t.status == TradeStatus.pending) := by
    rw [List.mem_filter]
    exact ⟨hmem, by simp [hid, hp]⟩
  have hlen : (db.trades.filter (fun t =>
      t.id == tid && t.status == TradeStatus.pending)).length ≠ 0 := by
    intro h0
    rw [List.length_eq_zero] at h0
    rw [h0] at hinfilter
    cases hinfilter
  have hcond : ((db.trades.filter (fun t =>
      t.id == tid && t.status == TradeStatus.pending)).length == 0) = false := by
    simpa using hlen
  constructor
  · intro c₁ c₂
    rfl
  · refine ⟨{ db with trades := db.trades.map (fun t =>
      if t.id == tid && t.status == TradeStatus.pending then
        { t with status := TradeStatus.declined }
      else t) }, ?_, ?_⟩
    · simp [handleTradeRequestResponse, DeclineTrade, hcond]
    · show findTrade _ tid = _
      unfold findTrade
      rw [find?_map_key Trade.id _ (fun t => by split <;> rfl) tid db.trades,
        hfind]
      simp [hid, hp]
      intro h
      exact absurd (by simpa using hid) h

/-- Witness: `declineTrade_no_authorization` with caller 999, who is neither
party of pending trade 1 in `dbPend`. -/
theorem declineTrade_no_authorization_witness :
    findTrade dbPend.trades 1 = some tradeOne ∧
    tradeOne.status = TradeStatus.pending ∧
    ((∀ c₁ c₂ : Int, handleTradeRequestResponse dbPend c₁ 1 "decline" =
        handleTradeRequestResponse dbPend c₂ 1 "decline") ∧
     ∃ db', handleTradeRequestResponse dbPend 999 1 "decline" =
        (db', HandlerOutcome.success) ∧
      findTrade db'.trades 1 =
        some { tradeOne with status := TradeStatus.declined }) :=
  ⟨by decide, by decide,
    declineTrade_no_authorization dbPend 999 1 tradeOne (by decide) (by decide)⟩

/-- C6: if, when the recipient accepts a pending trade, some `fromItems` car
is no longer owned by `fromUser` (or some `toItems` car by `toUser`), the
call fails with a `NotOwned` error and the database — item owners and the
trade's pending status — is left unchanged. -/
theorem acceptTrade_notOwned_pending (db : DB) (u tid : Int) (tr : Trade)
    (hfind : findTrade db.trades tid = some tr)
    (hrec : u = tr.userIDTo)
    (_hp : tr.status = TradeStatus.pending)
    (hbad : (∃ c ∈ tr.userFromCarIDs,
              ownsCount db.userCars c tr.userIDFrom = 0) ∨
            (∃ c ∈ tr.userToCarIDs,
              ownsCount db.userCars c tr.userIDTo = 0)) :
    ∃ u' c', acceptRun db u tid = (db, some (TradeErr.notOwned u' c')) := by
  subst hrec
  rcases hbad with hb | hb
  · obtain ⟨c', hv⟩ :=
      verifyCarOwnership_fails db.userCars tr.userIDFrom tr.userFromCarIDs hb
    exact ⟨tr.userIDFrom, c', by simp [acceptRun, AcceptTrade, hfind, hv]⟩
  · cases hv1 : verifyCarOwnership db.userCars tr.userIDFrom
      tr.userFromCarIDs with
    | some p =>
        obtain ⟨pu, pc⟩ := p
        exact ⟨pu, pc, by simp [acceptRun, AcceptTrade, hfind, hv1]⟩
    | none =>
        obtain ⟨c', hv⟩ :=
          verifyCarOwnership_fails db.userCars tr.userIDTo tr.userToCarIDs hb
        exact ⟨tr.userIDTo, c', by simp [acceptRun, AcceptTrade, hfind, hv1, hv]⟩

/-- Witness: in `dbC6state` car 10 belongs to user 9, so user 2's accept of
pending trade 1 fails with `NotOwned` and changes nothing. -/
theorem acceptTrade_notOwned_pending_witness :
    tradeOne.status = TradeStatus.pending ∧
    ownsCount dbC6state.userCars 10 1 = 0 ∧
    ∃ u' c', acceptRun dbC6state 2 1 =
      (dbC6state, some (TradeErr.notOwned u' c')) :=
  ⟨by decide, by decide,
    acceptTrade_notOwned_pending dbC6state 2 1 tradeOne (by decide) (by decide)
      (by decide) (Or.inl ⟨10, by decide, by decide⟩)⟩

/-- C5 (amended): a recipient's accept of a trade in a terminal state always
fails and transfers nothing; the error kind is `InvalidState` when both
ownership verifications still pass, but ownership is checked before status,
so when ownership has drifted the error is `NotOwned` instead. -/
theorem acceptTrade_terminal_fails (db : DB) (u tid : Int) (tr : Trade)
    (hfind : findTrade db.trades tid = some tr)
    (hrec : u = tr.userIDTo)
    (hterm : tr.status ≠ TradeStatus.pending) :
    (acceptRun db u tid).1 = db ∧ (acceptRun db u tid).2.isSome = true ∧
    (verifyCarOwnership db.userCars tr.userIDFrom tr.userFromCarIDs = none →
     verifyCarOwnership db.userCars tr.userIDTo tr.userToCarIDs = none →
     AcceptTrade db u tid = .error TradeErr.invalidState) := by
  subst hrec
  have hst : (tr.status != TradeStatus.pending) = true := by simpa using hterm
  cases hv1 : verifyCarOwnership db.userCars tr.userIDFrom
    tr.userFromCarIDs with
  | some p =>
      obtain ⟨pu, pc⟩ := p
      refine ⟨by simp [acceptRun, AcceptTrade, hfind, hv1],
        by simp [acceptRun, AcceptTrade, hfind, hv1], ?_⟩
      intro h1 _
      exact absurd h1 (by simp [hv1])
  | none =>
      cases hv2 : verifyCarOwnership db.userCars tr.userIDTo
        tr.userToCarIDs with
      | some p =>
          obtain ⟨pu, pc⟩ := p
          refine ⟨by simp [acceptRun, AcceptTrade, hfind, hv1, hv2],
            by simp [acceptRun, AcceptTrade, hfind, hv1, hv2], ?_⟩
          intro _ h2
          exact absurd h2 (by simp [hv2])
      | none =>
          refine ⟨by simp [acceptRun, AcceptTrade, hfind, hv1, hv2, hst],
            by simp [acceptRun, AcceptTrade, hfind, hv1, hv2, hst],
            fun _ _ => by simp [AcceptTrade, hfind, hv1, hv2, hst]⟩

/-- Witness: accepting the declined trade 1 of `dbC5decl` (ownership intact)
fails with `InvalidState`. -/
theorem acceptTrade_terminal_fails_witness :
    (findTrade dbC5decl.trades 1).map Trade.status =
      some TradeStatus.declined ∧
    AcceptTrade dbC5decl 2 1 = .error TradeErr.invalidState :=
  ⟨by decide,
    (acceptTrade_terminal_fails dbC5decl 2 1
        ⟨1, 1, 2, TradeStatus.declined, [10], [20], 50, none⟩
        (by decide) (by decide) (by decide)).2.2 (by decide) (by decide)⟩

/-- Counterexample to C5 as stated: in `dbC5state` trade 1 is already
accepted and its cars have moved, and the recipient's second accept fails
with `NotOwned 1 10`, not with `InvalidState`. -/
theorem acceptTrade_terminal_not_invalidState_cex :
    (findTrade dbC5state.trades 1).map Trade.status =
      some TradeStatus.accepted ∧
    (findTrade dbC5state.trades 1).map Trade.userIDTo = some 2 ∧
    AcceptTrade dbC5state 2 1 = .error (TradeErr.notOwned 1 10) ∧
    TradeErr.notOwned 1 10 ≠ TradeErr.invalidState :=
  ⟨by decide, by decide, by rfl, by decide⟩

/-- C7 (amended): a feed-publication failure aborts the acceptance — the
call errors with `FeedFailure` and the rollback leaves the database exactly
as before, the trade still pending and no owner changed. -/
theorem acceptTrade_feedFailure_rolls_back (db : DB) (u tid : Int)
    (tr : Trade)
    (hfind : findTrade db.trades tid = some tr)
    (hrec : u = tr.userIDTo)
    (hp : tr.status = TradeStatus.pending)
    (hv1 : verifyCarOwnership db.userCars tr.userIDFrom
      tr.userFromCarIDs = none)
    (hv2 : verifyCarOwnership db.userCars tr.userIDTo
      tr.userToCarIDs = none)
    (hfeed : db.feedFails = true) :
    acceptRun db u tid = (db, some TradeErr.feedFailure) := by
  subst hrec
  simp [acceptRun, AcceptTrade, hfind, hv1, hv2, hp, hfeed]

/-- Witness: `acceptTrade_feedFailure_rolls_back` at `dbC7state`. -/
theorem acceptTrade_feedFailure_rolls_back_witness :
    dbC7state.feedFails = true ∧
    acceptRun dbC7state 2 1 = (dbC7state, some TradeErr.feedFailure) :=
  ⟨by decide,
    acceptTrade_feedFailure_rolls_back dbC7state 2 1 tradeOne (by decide)
      (by decide) (by decide) (by decide) (by decide) (by decide)⟩

/-- Counterexample to C7 as stated: in `dbC7state` the feed insert fails,
and the acceptance does not commit — the trade stays pending and car 10
stays with user 1, instead of the accepted/transferred state the claim
promises. -/
theorem acceptTrade_feedFailure_cex :
    dbC7state.feedFails = true ∧
    acceptRun dbC7state 2 1 = (dbC7state, some TradeErr.feedFailure) ∧
    (findTrade ((acceptRun dbC7state 2 1).1).trades 1).map Trade.status ≠
      some TradeStatus.accepted ∧
    carOwner ((acceptRun dbC7state 2 1).1).userCars 10 = some 1 := by decide

/-- C4: starting from a state with no matching pending trade, a successful
`CreateTrade` followed by the identical call again returns success, leaves
the trade set unchanged, and exactly one row matches the tuple afterwards
(order-sensitive list equality). -/
theorem createTrade_idempotent (db : DB) (f t : Int) (fc tc : List Int)
    (db₁ : DB)
    (hnm : matchingPendingCount db.trades f t fc tc = 0)
    (h1 : CreateTrade db f t fc tc = .ok db₁) :
    CreateTrade db₁ f t fc tc = .ok db₁ ∧
    matchingPendingCount db₁.trades f t fc tc = 1 := by
  obtain ⟨hsf, hst, hcase⟩ := createTrade_ok_shape db f t fc tc db₁ h1
  rcases hcase with ⟨hpos, _⟩ | ⟨_, _, _, hdb⟩
  · omega
  · subst hdb
    have hcnt : matchingPendingCount
        (db.trades ++ [newTrade db f t fc tc]) f t fc tc = 1 := by
      rw [matchingPendingCount_append, hnm, matchingPendingCount_newTrade]
    refine ⟨?_, hcnt⟩
    unfold CreateTrade
    have hsf' : hasActiveSubscription { db with
        trades := db.trades ++ [newTrade db f t fc tc]
        nextTradeID := db.nextTradeID + 1 } f = true := hsf
    have hst' : hasActiveSubscription { db with
        trades := db.trades ++ [newTrade db f t fc tc]
        nextTradeID := db.nextTradeID + 1 } t = true := hst
    rw [hsf', hst']
    simp [hcnt]

/-- Witness: `createTrade_idempotent` for the trade `(1, 2, [10], [20])` on
`dbEmpty`. -/
theorem createTrade_idempotent_witness :
    matchingPendingCount dbEmpty.trades 1 2 [10] [20] = 0 ∧
    (CreateTrade { dbEmpty with
        trades := dbEmpty.trades ++ [newTrade dbEmpty 1 2 [10] [20]]
        nextTradeID := dbEmpty.nextTradeID + 1 } 1 2 [10] [20] =
      .ok { dbEmpty with
        trades := dbEmpty.trades ++ [newTrade dbEmpty 1 2 [10] [20]]
        nextTradeID := dbEmpty.nextTradeID + 1 } ∧
     matchingPendingCount ({ dbEmpty with
        trades := dbEmpty.trades ++ [newTrade dbEmpty 1 2 [10] [20]]
        nextTradeID := dbEmpty.nextTradeID + 1 } : DB).trades
        1 2 [10] [20] = 1) :=
  ⟨by decide,
    createTrade_idempotent dbEmpty 1 2 [10] [20] _ (by decide) (by rfl)⟩

/-- After `updateCarOwnerships`, under the `user_cars` primary key and both
pre-checks of `AcceptTrade`, every `fromItems` car is owned by `userIDTo`
and every `toItems` car by `userIDFrom`. -/
lemma carOwner_updateCarOwnerships (cars : List UserCar) (f t : Int)
    (fc tc : List Int) (hPK : (cars.map UserCar.id).Nodup)
    (hv1 : verifyCarOwnership cars f fc = none)
    (hv2 : verifyCarOwnership cars t tc = none) :
    (∀ c ∈ fc, carOwner (updateCarOwnerships cars f t fc tc) c = some t) ∧
    (∀ c ∈ tc, carOwner (updateCarOwnerships cars f t fc tc) c = some f) := by
  rw [updateCarOwnerships_eq_map]
  have hv1' := (verifyCarOwnership_eq_none_iff cars f fc).mp hv1
  have hv2' := (verifyCarOwnership_eq_none_iff cars t tc).mp hv2
  have hkey : ∀ x : UserCar, UserCar.id
      (if tc.contains x.id then { x with userId := f }
       else if fc.contains x.id then { x with userId := t } else x) =
      UserCar.id x := by
    intro x
    split
    · rfl
    · split <;> rfl
  constructor
  · intro c hc
    obtain ⟨uc, hmem, hid, huser⟩ :=
      (ownsCount_ne_zero_iff cars c f).mp (hv1' c hc)
    unfold carOwner
    rw [find?_map_key UserCar.id _ hkey c cars, ← hid,
      find?_eq_some_self UserCar.id cars hPK uc hmem]
    by_cases htc : uc.id ∈ tc
    · obtain ⟨uc', hmem', hid', huser'⟩ :=
        (ownsCount_ne_zero_iff cars uc.id t).mp (hv2' uc.id htc)
      have heq := eq_of_nodup_key UserCar.id cars hPK uc' uc hmem' hmem hid'
      rw [heq] at huser'
      have hft : f = t := by rw [← huser, huser']
      simp [htc, hft]
    · have hfc : uc.id ∈ fc := by rwa [hid]
      simp [htc, hfc, huser]
  · intro c hc
    obtain ⟨uc, hmem, hid, huser⟩ :=
      (ownsCount_ne_zero_iff cars c t).mp (hv2' c hc)
    unfold carOwner
    rw [find?_map_key UserCar.id _ hkey c cars, ← hid,
      find?_eq_some_self UserCar.id cars hPK uc hmem]
    have htc : uc.id ∈ tc := by rwa [hid]
    simp [htc]

/-- C1: `AcceptTrade` is all-or-nothing.  On error the observable state is
exactly the pre-state (no ownership change, no status change); on success
every `fromItems` car belongs to `toUser`, every `toItems` car to
`fromUser`, and the trade is `accepted` with `traded_at` set. -/
theorem acceptTrade_all_or_nothing (db : DB) (u tid : Int)
    (hPK : (db.userCars.map UserCar.id).Nodup) :
    ((acceptRun db u tid).2 ≠ none → (acceptRun db u tid).1 = db) ∧
    ((acceptRun db u tid).2 = none →
      ∃ tr, findTrade db.trades tid = some tr ∧
        (∀ c ∈ tr.userFromCarIDs,
          carOwner (acceptRun db u tid).1.userCars c = some tr.userIDTo) ∧
        (∀ c ∈ tr.userToCarIDs,
          carOwner (acceptRun db u tid).1.userCars c = some tr.userIDFrom) ∧
        findTrade (acceptRun db u tid).1.trades tid =
          some { tr with status := TradeStatus.accepted, tradedAt := some db.now }) := by
  cases hA : AcceptTrade db u tid with
  | error e =>
      constructor
      · intro _
        simp [acceptRun, hA]
      · intro h
        simp [acceptRun, hA] at h
  | ok db' =>
      constructor
      · intro h
        simp [acceptRun, hA] at h
      · intro _
        obtain ⟨tr, hfind, hu, hv1, hv2, hp, hfeed, hdb'⟩ :=
          acceptTrade_ok_shape db u tid db' hA
        have hid : tr.id = tid := by
          unfold findTrade at hfind
          have := List.find?_some hfind
          simpa using this
        have hrun : (acceptRun db u tid).1 = db' := by simp [acceptRun, hA]
        subst hdb'
        obtain ⟨hfcars, htcars⟩ := carOwner_updateCarOwnerships db.userCars
          tr.userIDFrom tr.userIDTo tr.userFromCarIDs tr.userToCarIDs
          hPK hv1 hv2
        refine ⟨tr, hfind, ?_, ?_, ?_⟩
        · intro c hc
          rw [hrun]
          exact hfcars c hc
        · intro c hc
          rw [hrun]
          exact htcars c hc
        · rw [hrun]
          show findTrade (declineTradesWithCars _ tid _) tid = _
          rw [findTrade_decline, findTrade_acceptMap, hfind]
          simp [hid]

/-- Witness: `acceptTrade_all_or_nothing` at `dbPend`, user 2, trade 1. -/
theorem acceptTrade_all_or_nothing_witness :
    (dbPend.userCars.map UserCar.id).Nodup ∧
    (((acceptRun dbPend 2 1).2 ≠ none → (acceptRun dbPend 2 1).1 = dbPend) ∧
     ((acceptRun dbPend 2 1).2 = none →
       ∃ tr, findTrade dbPend.trades 1 = some tr ∧
         (∀ c ∈ tr.userFromCarIDs,
           carOwner (acceptRun dbPend 2 1).1.userCars c =
             some tr.userIDTo) ∧
         (∀ c ∈ tr.userToCarIDs,
           carOwner (acceptRun dbPend 2 1).1.userCars c =
             some tr.userIDFrom) ∧
         findTrade (acceptRun dbPend 2 1).1.trades 1 =
           some { tr with status := TradeStatus.accepted, tradedAt := some dbPend.now })) :=
  ⟨by decide, acceptTrade_all_or_nothing dbPend 2 1 (by decide)⟩

/-- C2: when an accept succeeds, every other pending trade listing one of
the moved cars is auto-declined, and every pending trade sharing no moved
car keeps its pending row unchanged. -/
theorem acceptTrade_declines_conflicting (db : DB) (u tid : Int)
    (db' : DB) (tr t' : Trade)
    (hTid : (db.trades.map Trade.id).Nodup)
    (hA : AcceptTrade db u tid = .ok db')
    (hfind : findTrade db.trades tid = some tr)
    (ht' : t' ∈ db.trades) (hne : t'.id ≠ tid)
    (hp : t'.status = TradeStatus.pending) :
    (sharesCar t' (tr.userFromCarIDs ++ tr.userToCarIDs) = true →
      findTrade db'.trades t'.id =
        some { t' with status := TradeStatus.declined }) ∧
    (sharesCar t' (tr.userFromCarIDs ++ tr.userToCarIDs) = false →
      findTrade db'.trades t'.id = some t') := by
  obtain ⟨tr₀, hfind₀, _, _, _, _, _, hdb'⟩ :=
    acceptTrade_ok_shape db u tid db' hA
  rw [hfind₀] at hfind
  obtain rfl : tr₀ = tr := Option.some.inj hfind
  subst hdb'
  have hft' : findTrade db.trades t'.id = some t' := by
    unfold findTrade
    exact find?_eq_some_self Trade.id db.trades hTid t' ht'
  constructor <;> intro hshare <;>
    · show findTrade (declineTradesWithCars _ tid _) t'.id = _
      rw [findTrade_decline, findTrade_acceptMap, hft']
      simp [hne, hp, hshare]

/-- Witness: in `dbPend`, accepting trade 1 auto-declines trade 2 (which
also lists car 10) and leaves trade 3 (no shared car) pending. -/
theorem acceptTrade_declines_conflicting_witness :
    (dbPend.trades.map Trade.id).Nodup ∧
    AcceptTrade dbPend 2 1 = .ok (acceptCommit dbPend 1 tradeOne) ∧
    sharesCar tradeTwo (tradeOne.userFromCarIDs ++ tradeOne.userToCarIDs) =
      true ∧
    sharesCar tradeThree (tradeOne.userFromCarIDs ++ tradeOne.userToCarIDs) =
      false ∧
    findTrade (acceptCommit dbPend 1 tradeOne).trades 2 =
      some { tradeTwo with status := TradeStatus.declined } ∧
    findTrade (acceptCommit dbPend 1 tradeOne).trades 3 = some tradeThree :=
  ⟨by decide, by rfl, by decide, by decide,
    (acceptTrade_declines_conflicting dbPend 2 1
      (acceptCommit dbPend 1 tradeOne) tradeOne tradeTwo (by decide) (by rfl)
      (by decide) (by decide) (by decide) (by decide)).1 (by decide),
    (acceptTrade_declines_conflicting dbPend 2 1
      (acceptCommit dbPend 1 tradeOne) tradeOne tradeThree (by decide) (by rfl)
      (by decide) (by decide) (by decide) (by decide)).2 (by decide)⟩

/-- C8 (amended): for any row order the `ORDER BY created_at DESC` query may
return, `GetUserTrades` yields at most `pageSize` trades, all involving the
user, in non-increasing `created_at` order, with the slice defined by offset
`(page-1)*pageSize`, and the separate count query counts all the user's
trades.  The tie order among equal `created_at` values is not specified by
the query. -/
theorem getUserTrades_returns_page (db : DB) (u : Int)
    (page pageSize : Int) (rows : List Trade) (hq : QueryRows db u rows) :
    (getUserTradesRows rows page pageSize).length ≤ pageSize.toNat ∧
    (∀ t ∈ getUserTradesRows rows page pageSize,
      (t.userIDFrom = u ∨ t.userIDTo = u) ∧ t ∈ db.trades) ∧
    (getUserTradesRows rows page pageSize).Pairwise
      (fun a b => b.createdAt ≤ a.createdAt) ∧
    getUserTradesCount db u = (tradesInvolving db u).length := by
  obtain ⟨hperm, hsort⟩ := hq
  have hsub : List.Sublist (getUserTradesRows rows page pageSize) rows :=
    (List.take_sublist _ _).trans (List.drop_sublist _ _)
  refine ⟨?_, ?_, ?_, rfl⟩
  · exact List.length_take_le _ _
  · intro t ht
    have htrows : t ∈ rows := hsub.subset ht
    have hmem : t ∈ tradesInvolving db u := hperm.mem_iff.mp htrows
    unfold tradesInvolving at hmem
    rw [List.mem_filter] at hmem
    refine ⟨?_, hmem.1⟩
    have := hmem.2
    simpa using this
  · exact hsort.sublist hsub

/-- Witness: `getUserTrades_returns_page` at `dbC8state`, user 1, page 1. -/
theorem getUserTrades_returns_page_witness :
    QueryRows dbC8state 1 [trA, trB] ∧
    ((getUserTradesRows [trA, trB] 1 10).length ≤ (10 : Int).toNat ∧
     (∀ t ∈ getUserTradesRows [trA, trB] 1 10,
       (t.userIDFrom = 1 ∨ t.userIDTo = 1) ∧ t ∈ dbC8state.trades) ∧
     (getUserTradesRows [trA, trB] 1 10).Pairwise
       (fun a b => b.createdAt ≤ a.createdAt) ∧
     getUserTradesCount dbC8state 1 = (tradesInvolving dbC8state 1).length) :=
  ⟨by decide, getUserTrades_returns_page dbC8state 1 1 10 [trA, trB]
    (by decide)⟩

/-- Counterexample to C8 as stated: `trA` and `trB` share `created_at`, the
order `[trA, trB]` (id ascending) is a legitimate result of `ORDER BY
created_at DESC`, and the page it yields differs from the id-descending tie
break the specification prescribes. -/
theorem getUserTrades_tie_order_cex :
    QueryRows dbC8state 1 [trA, trB] ∧
    trA.createdAt = trB.createdAt ∧ trA.id < trB.id ∧
    getUserTradesRows [trA, trB] 1 10 ≠ specGetUserTrades dbC8state 1 1 10 :=
  ⟨by decide, by decide, by decide, by decide⟩


/-- Conflict resolution keeps every non-pending row untouched. -/
lemma declineTradesWithCars_mem_terminal (l : List Trade) (ex : Int)
    (ids : List Int) (t : Trade) (ht : t ∈ l)
    (hterm : t.status ≠ TradeStatus.pending) :
    t ∈ declineTradesWithCars l ex ids := by
  unfold declineTradesWithCars
  split
  · exact ht
  · refine List.mem_map.mpr ⟨t, ht, ?_⟩
    have hst : (t.status == TradeStatus.pending) = false := by
      simpa using hterm
    simp [hst]

/-- The ids of the trade rows after a successful accept are unchanged. -/
lemma acceptCommit_trades_ids (db : DB) (tid : Int) (tr : Trade) :
    (acceptCommit db tid tr).trades.map Trade.id = db.trades.map Trade.id := by
  show (declineTradesWithCars _ tid _).map Trade.id = _
  rw [declineTradesWithCars_ids]
  exact map_key_map Trade.id _ (fun t => by split <;> rfl) db.trades

/-- Every single operation preserves the primary-key well-formedness. -/
lemma WF_applyOp (db : DB) (op : Op) (h : WF db) : WF (applyOp db op) := by
  obtain ⟨hnd, hlt⟩ := h
  cases op with
  | create f t fc tc =>
      cases hC : CreateTrade db f t fc tc with
      | error e =>
          simp only [applyOp, hC]
          exact ⟨hnd, hlt⟩
      | ok db' =>
          simp only [applyOp, hC]
          obtain ⟨_, _, hcase⟩ := createTrade_ok_shape db f t fc tc db' hC
          rcases hcase with ⟨_, rfl⟩ | ⟨_, _, _, rfl⟩
          · exact ⟨hnd, hlt⟩
          · constructor
            · show (List.map Trade.id
                (db.trades ++ [newTrade db f t fc tc])).Nodup
              rw [List.map_append, List.nodup_append]
              refine ⟨hnd, List.nodup_singleton _, ?_⟩
              intro a ha hb
              have hlt' : a < db.nextTradeID := by
                obtain ⟨t', ht', rfl⟩ := List.mem_map.mp ha
                exact hlt t' ht'
              have hanew : a = (newTrade db f t fc tc).id := by
                simpa using hb
              rw [hanew] at hlt'
              exact absurd hlt' (by simp [newTrade])
            · intro t' ht'
              show t'.id < db.nextTradeID + 1
              rcases List.mem_append.mp ht' with h1 | h1
              · exact lt_trans (hlt t' h1) (by omega)
              · have ht'new : t' = newTrade db f t fc tc := by simpa using h1
                rw [ht'new]
                show db.nextTradeID < db.nextTradeID + 1
                omega
  | accept u tid =>
      cases hA : AcceptTrade db u tid with
      | error e =>
          simp only [applyOp, hA]
          exact ⟨hnd, hlt⟩
      | ok db' =>
          simp only [applyOp, hA]
          obtain ⟨tr₀, _, _, _, _, _, _, rfl⟩ :=
            acceptTrade_ok_shape db u tid db' hA
          have hids := acceptCommit_trades_ids db tid tr₀
          constructor
          · show ((acceptCommit db tid tr₀).trades.map Trade.id).Nodup
            rw [hids]
            exact hnd
          · intro t' ht'
            have hidmem : t'.id ∈
                (acceptCommit db tid tr₀).trades.map Trade.id :=
              List.mem_map_of_mem _ ht'
            rw [hids] at hidmem
            obtain ⟨t₁, ht₁, hid₁⟩ := List.mem_map.mp hidmem
            show t'.id < db.nextTradeID
            rw [← hid₁]
            exact hlt t₁ ht₁
  | decline tid =>
      cases hD : DeclineTrade db tid with
      | error e =>
          simp only [applyOp, hD]
          exact ⟨hnd, hlt⟩
      | ok db' =>
          simp only [applyOp, hD]
          obtain ⟨_, rfl⟩ := declineTrade_ok_shape db tid db' hD
          have hids : (db.trades.map (fun t =>
              if t.id == tid && t.status == TradeStatus.pending then
                { t with status := TradeStatus.declined }
              else t)).map Trade.id = db.trades.map Trade.id :=
            map_key_map Trade.id _ (fun t => by split <;> rfl) db.trades
          constructor
          · show ((db.trades.map _).map Trade.id).Nodup
            rw [hids]
            exact hnd
          · intro t' ht'
            have hidmem : t'.id ∈ (db.trades.map (fun t =>
                if t.id == tid && t.status == TradeStatus.pending then
                  { t with status := TradeStatus.declined }
                else t)).map Trade.id := List.mem_map_of_mem _ ht'
            rw [hids] at hidmem
            obtain ⟨t₁, ht₁, hid₁⟩ := List.mem_map.mp hidmem
            show t'.id < db.nextTradeID
            rw [← hid₁]
            exact hlt t₁ ht₁

/-- A terminal (non-pending) trade row survives any single operation
byte-for-byte. -/
lemma terminal_mem_applyOp (db : DB) (op : Op) (h : WF db) (tr : Trade)
    (htr : tr ∈ db.trades) (hterm : tr.status ≠ TradeStatus.pending) :
    tr ∈ (applyOp db op).trades := by
  cases op with
  | create f t fc tc =>
      cases hC : CreateTrade db f t fc tc with
      | error e =>
          simp only [applyOp, hC]
          exact htr
      | ok db' =>
          simp only [applyOp, hC]
          obtain ⟨_, _, hcase⟩ := createTrade_ok_shape db f t fc tc db' hC
          rcases hcase with ⟨_, rfl⟩ | ⟨_, _, _, rfl⟩
          · exact htr
          · show tr ∈ db.trades ++ [newTrade db f t fc tc]
            exact List.mem_append_left _ htr
  | accept u tid =>
      cases hA : AcceptTrade db u tid with
      | error e =>
          simp only [applyOp, hA]
          exact htr
      | ok db' =>
          simp only [applyOp, hA]
          obtain ⟨tr₀, hfind₀, _, _, _, hp₀, _, rfl⟩ :=
            acceptTrade_ok_shape db u tid db' hA
          show tr ∈ declineTradesWithCars _ tid _
          have hne : (tr.id == tid) = false := by
            have hne' : tr.id ≠ tid := by
              intro heq
              have h1 : findTrade db.trades tr.id = some tr := by
                unfold findTrade
                exact find?_eq_some_self Trade.id db.trades h.1 tr htr
              rw [heq] at h1
              rw [h1] at hfind₀
              obtain rfl : tr = tr₀ := Option.some.inj hfind₀
              exact hterm hp₀
            simpa using hne'
          apply declineTradesWithCars_mem_terminal _ tid _ tr _ hterm
          refine List.mem_map.mpr ⟨tr, htr, ?_⟩
          simp [hne]
  | decline tid =>
      cases hD : DeclineTrade db tid with
      | error e =>
          simp only [applyOp, hD]
          exact htr
      | ok db' =>
          simp only [applyOp, hD]
          obtain ⟨_, rfl⟩ := declineTrade_ok_shape db tid db' hD
          show tr ∈ db.trades.map _
          refine List.mem_map.mpr ⟨tr, htr, ?_⟩
          have hst : (tr.status == TradeStatus.pending) = false := by
            simpa using hterm
          simp [hst]

/-- Well-formedness and terminal rows survive whole operation sequences. -/
lemma WF_and_terminal_applyOps (ops : List Op) :
    ∀ db : DB, WF db → ∀ tr ∈ db.trades,
      tr.status ≠ TradeStatus.pending →
      WF (applyOps db ops) ∧ tr ∈ (applyOps db ops).trades := by
  induction ops with
  | nil =>
      intro db h tr htr _
      exact ⟨h, htr⟩
  | cons op ops ih =>
      intro db h tr htr hterm
      exact ih (applyOp db op) (WF_applyOp db op h) tr
        (terminal_mem_applyOp db op h tr htr hterm) hterm

/-- C3: terminal trades are immutable.  In a well-formed state, a trade
whose status is `accepted` or `declined` is returned unchanged — same
status, parties and item lists — by an id lookup after any sequence of
`CreateTrade` / `AcceptTrade` (with its conflict resolver) / `DeclineTrade`
operations. -/
theorem terminal_trades_immutable (db : DB) (ops : List Op) (tr : Trade)
    (hwf : WF db) (htr : tr ∈ db.trades)
    (hterm : tr.status ≠ TradeStatus.pending) :
    findTrade (applyOps db ops).trades tr.id = some tr := by
  obtain ⟨hwf', htr'⟩ := WF_and_terminal_applyOps ops db hwf tr htr hterm
  unfold findTrade
  exact find?_eq_some_self Trade.id _ hwf'.1 tr htr'

/-- Witness: the accepted trade 1 of `dbC5state` survives a decline, a
repeated accept, a fresh create and a conflicting accept untouched. -/
theorem terminal_trades_immutable_witness :
    WF dbC5state ∧
    (⟨1, 1, 2, TradeStatus.accepted, [10], [20], 50, some 60⟩ : Trade) ∈
      dbC5state.trades ∧
    findTrade (applyOps dbC5state
        [Op.decline 1, Op.accept 2 1, Op.create 2 1 [10] [20],
         Op.accept 1 4, Op.decline 3]).trades 1 =
      some ⟨1, 1, 2, TradeStatus.accepted, [10], [20], 50, some 60⟩ :=
  ⟨by decide, by decide,
    terminal_trades_immutable dbC5state
      [Op.decline 1, Op.accept 2 1, Op.create 2 1 [10] [20],
       Op.accept 1 4, Op.decline 3]
      ⟨1, 1, 2, TradeStatus.accepted, [10], [20], 50, some 60⟩
      (by decide) (by decide) (by decide)⟩
